import Mathlib

/-!
Verification of the hotkey-triggered capture-and-dispatch pipeline of the
rusty-scribe repository. Each Rust function that the claims touch is given a
shallow embedding as an executable Lean definition, translated directly from
the source files (src/hotkeys.rs, src/main.rs, src/audio.rs), and the claims
are settled as theorems about those definitions.
-/

namespace RustyScribe

/-!
## Keys and the hotkey parser (src/hotkeys.rs)

Rust strings are embedded as `List Char`. `parse_hotkey` in the source is
`hotkey.split('+').filter_map(|part| match part.trim().to_lowercase().as_str()
{ ... }).collect::<HashSet<Key>>()`; the `HashSet` result is embedded as a
`Finset`.
-/

/-- Logical keys that `parse_hotkey` in src/hotkeys.rs can produce (the
`rdev::Key` variants named in its match arms). -/
inductive Key where
  | ShiftLeft
  | ControlLeft
  | Alt
  | Space
  | Return
  | Escape
  deriving DecidableEq, Repr

/-- ASCII lowercasing of a single character, modelling `str::to_lowercase`
on the characters that can occur in recognized tokens. -/
def asciiLower (c : Char) : Char :=
  match c with
  | 'A' => 'a' | 'B' => 'b' | 'C' => 'c' | 'D' => 'd' | 'E' => 'e' | 'F' => 'f'
  | 'G' => 'g' | 'H' => 'h' | 'I' => 'i' | 'J' => 'j' | 'K' => 'k' | 'L' => 'l'
  | 'M' => 'm' | 'N' => 'n' | 'O' => 'o' | 'P' => 'p' | 'Q' => 'q' | 'R' => 'r'
  | 'S' => 's' | 'T' => 't' | 'U' => 'u' | 'V' => 'v' | 'W' => 'w' | 'X' => 'x'
  | 'Y' => 'y' | 'Z' => 'z'
  | c => c

/-- Lowercase ASCII letters, the image of the nontrivial branches of
`asciiLower`. -/
def lcAlphabet : List Char :=
  ['a', 'b', 'c', 'd', 'e', 'f', 'g', 'h', 'i', 'j', 'k', 'l', 'm',
   'n', 'o', 'p', 'q', 'r', 's', 't', 'u', 'v', 'w', 'x', 'y', 'z']

/-- Whitespace predicate used by the model of `str::trim` (the ASCII
whitespace characters relevant to combo strings). -/
def isWs (c : Char) : Bool :=
  c = ' ' || c = '\t' || c = '\n' || c = '\r'

/-- Lowercasing of a whole embedded string (`str::to_lowercase`). -/
def lowerStr (s : List Char) : List Char :=
  s.map asciiLower

/-- Model of `str::trim`: drop leading and trailing whitespace. -/
def trimChars (s : List Char) : List Char :=
  ((s.dropWhile isWs).reverse.dropWhile isWs).reverse

/-- The match arms of `parse_hotkey`, applied to an already trimmed and
lowercased token: `"shift"`, `"control" | "ctrl"`, `"alt"`, `"space"`,
`"enter"`, `"escape"`, with a catch-all returning `None`. -/
def keyOfName (t : List Char) : Option Key :=
  if t = "shift".data then some Key.ShiftLeft
  else if t = "control".data then some Key.ControlLeft
  else if t = "ctrl".data then some Key.ControlLeft
  else if t = "alt".data then some Key.Alt
  else if t = "space".data then some Key.Space
  else if t = "enter".data then some Key.Return
  else if t = "escape".data then some Key.Escape
  else none

/-- One token of a combo string, as processed by the closure in
`parse_hotkey`: `part.trim().to_lowercase()` fed to the match. -/
def keyOfToken (part : List Char) : Option Key :=
  keyOfName (lowerStr (trimChars part))

/-- Model of `str::split('+')`: the list of (possibly empty) chunks between
occurrences of `'+'`. The empty string yields one empty chunk, as in Rust. -/
def splitPlus : List Char → List (List Char)
  | [] => [[]]
  | c :: cs =>
    if c = '+' then [] :: splitPlus cs
    else
      match splitPlus cs with
      | [] => [[c]]
      | t :: ts => (c :: t) :: ts

/-- Embedding of `parse_hotkey` from src/hotkeys.rs. -/
def parse_hotkey (hotkey : String) : Finset Key :=
  ((splitPlus hotkey.data).filterMap keyOfToken).toFinset

/-- The set collected from a list of tokens, the form `parse_hotkey` takes
after splitting. -/
def parseTokens (tokens : List (List Char)) : Finset Key :=
  (tokens.filterMap keyOfToken).toFinset

/-- Join a list of tokens with `'+'` separators, the inverse of splitting
used to quantify over combo strings with a given token list. -/
def joinPlus (tokens : List (List Char)) : List Char :=
  (List.intersperse ['+'] tokens).flatten

/-! ### Lemmas about the character helpers -/

theorem asciiLower_eq_plus {c : Char} : asciiLower c = '+' ↔ c = '+' := by
  unfold asciiLower
  split <;> simp_all

theorem asciiLower_image (c : Char) : asciiLower c = c ∨ asciiLower c ∈ lcAlphabet := by
  unfold asciiLower
  split <;> first | (left; rfl) | (right; decide)

theorem asciiLower_of_mem_lc {c : Char} (h : c ∈ lcAlphabet) : asciiLower c = c := by
  fin_cases h <;> rfl

theorem asciiLower_idem (c : Char) : asciiLower (asciiLower c) = asciiLower c := by
  rcases asciiLower_image c with h | h
  · rw [h]; exact h
  · exact asciiLower_of_mem_lc h

theorem isWs_asciiLower (c : Char) : isWs (asciiLower c) = isWs c := by
  unfold asciiLower
  split <;> rfl

theorem lowerStr_idem (s : List Char) : lowerStr (lowerStr s) = lowerStr s := by
  simp only [lowerStr, List.map_map]
  exact List.map_congr_left fun c _ => asciiLower_idem c

theorem trimChars_lowerStr (s : List Char) :
    trimChars (lowerStr s) = lowerStr (trimChars s) := by
  have hws : (isWs ∘ asciiLower) = isWs := funext isWs_asciiLower
  simp only [trimChars, lowerStr]
  rw [List.dropWhile_map, hws, ← List.map_reverse, List.dropWhile_map, hws,
    ← List.map_reverse]

theorem keyOfToken_lowerStr (t : List Char) :
    keyOfToken (lowerStr t) = keyOfToken t := by
  unfold keyOfToken
  rw [trimChars_lowerStr, lowerStr_idem]

/-! ### Lemmas about splitting and joining -/

theorem splitPlus_cons (c : Char) (cs : List Char) :
    splitPlus (c :: cs) =
      if c = '+' then [] :: splitPlus cs
      else
        match splitPlus cs with
        | [] => [[c]]
        | t :: ts => (c :: t) :: ts := rfl

theorem splitPlus_ne_nil (s : List Char) : splitPlus s ≠ [] := by
  induction s with
  | nil => simp [splitPlus]
  | cons c cs ih =>
    unfold splitPlus
    split
    · exact List.cons_ne_nil _ _
    · rcases hcs : splitPlus cs with _ | ⟨t, ts⟩ <;> simp [hcs]

theorem splitPlus_no_plus {t : List Char} (h : '+' ∉ t) : splitPlus t = [t] := by
  induction t with
  | nil => rfl
  | cons c cs ih =>
    have hc : ¬ c = '+' := fun e => h (e ▸ List.mem_cons_self c cs)
    have ih' := ih fun hm => h (List.mem_cons_of_mem _ hm)
    unfold splitPlus
    rw [if_neg hc, ih']

theorem splitPlus_append {t : List Char} (r : List Char) (h : '+' ∉ t) :
    splitPlus (t ++ '+' :: r) = t :: splitPlus r := by
  induction t with
  | nil => simp [splitPlus]
  | cons c cs ih =>
    have hc : ¬ c = '+' := fun e => h (e ▸ List.mem_cons_self c cs)
    have ih' := ih fun hm => h (List.mem_cons_of_mem _ hm)
    rw [List.cons_append, splitPlus_cons, if_neg hc, ih']

theorem joinPlus_single (t : List Char) : joinPlus [t] = t := by
  simp [joinPlus, List.intersperse]

theorem joinPlus_cons_cons (t t' : List Char) (ts : List (List Char)) :
    joinPlus (t :: t' :: ts) = t ++ '+' :: joinPlus (t' :: ts) := by
  simp [joinPlus, List.intersperse]

theorem splitPlus_joinPlus {l : List (List Char)} (hl : l ≠ [])
    (h : ∀ t ∈ l, '+' ∉ t) : splitPlus (joinPlus l) = l := by
  induction l with
  | nil => exact absurd rfl hl
  | cons t ts ih =>
    cases ts with
    | nil =>
      rw [joinPlus_single]
      exact splitPlus_no_plus (h t (List.mem_cons_self t []))
    | cons t' ts' =>
      rw [joinPlus_cons_cons,
        splitPlus_append _ (h t (List.mem_cons_self t _)),
        ih (List.cons_ne_nil _ _) fun u hu => h u (List.mem_cons_of_mem _ hu)]

theorem keyOfToken_nil : keyOfToken [] = none := by decide

theorem parse_join {l : List (List Char)} (h : ∀ t ∈ l, '+' ∉ t) :
    parse_hotkey (String.mk (joinPlus l)) = parseTokens l := by
  cases l with
  | nil =>
    show ((splitPlus (joinPlus [])).filterMap keyOfToken).toFinset = _
    simp [joinPlus, splitPlus, keyOfToken_nil, parseTokens]
  | cons t ts =>
    show ((splitPlus (joinPlus (t :: ts))).filterMap keyOfToken).toFinset = _
    rw [splitPlus_joinPlus (List.cons_ne_nil _ _) h]
    rfl

theorem splitPlus_lowerStr (s : List Char) :
    splitPlus (lowerStr s) = (splitPlus s).map lowerStr := by
  induction s with
  | nil => rfl
  | cons c cs ih =>
    show splitPlus (asciiLower c :: lowerStr cs) = _
    by_cases hc : c = '+'
    · subst hc
      unfold splitPlus
      rw [if_pos (by decide), if_pos rfl, ih]
      rfl
    · have hc' : ¬ asciiLower c = '+' := fun e => hc (asciiLower_eq_plus.mp e)
      rcases hcs : splitPlus cs with _ | ⟨t, ts⟩
      · exact absurd hcs (splitPlus_ne_nil cs)
      · unfold splitPlus
        rw [if_neg hc', if_neg hc, ih, hcs]
        rfl

theorem filterMap_keyOfToken_trim_congr :
    ∀ {l1 l2 : List (List Char)}, l1.map trimChars = l2.map trimChars →
      l1.filterMap keyOfToken = l2.filterMap keyOfToken := by
  intro l1
  induction l1 with
  | nil =>
    intro l2 h
    cases l2 with
    | nil => rfl
    | cons _ _ => simp at h
  | cons t ts ih =>
    intro l2 h
    cases l2 with
    | nil => simp at h
    | cons u us =>
      simp only [List.map_cons, List.cons.injEq] at h
      have hkey : keyOfToken t = keyOfToken u := by
        unfold keyOfToken
        rw [h.1]
      simp only [List.filterMap_cons, hkey, ih h.2]

theorem filterMap_keyOfToken_filter_isSome (l : List (List Char)) :
    (l.filter fun t => (keyOfToken t).isSome).filterMap keyOfToken =
      l.filterMap keyOfToken := by
  induction l with
  | nil => rfl
  | cons t ts ih =>
    rcases hk : keyOfToken t with _ | k <;>
      simp [List.filter_cons, List.filterMap_cons, hk, ih]

/-- C7: for combo strings made of recognized tokens, `parse_hotkey` is
idempotent (parsing the same string twice yields equal sets), reorder
invariant over the `'+'`-joined token list (in particular
`parse_hotkey "Shift+Space" = parse_hotkey "Space+Shift"`), insensitive to
character case, and insensitive to whitespace around tokens (tokens that
agree after `trim` parse identically). -/
theorem parse_hotkey_algebraic :
    (∀ s : String, parse_hotkey s = parse_hotkey s) ∧
    (parse_hotkey "Shift+Space" = parse_hotkey "Space+Shift") ∧
    (∀ l1 l2 : List (List Char),
      (∀ t ∈ l1, '+' ∉ t) → (∀ t ∈ l1, (keyOfToken t).isSome) → l1.Perm l2 →
        parse_hotkey (String.mk (joinPlus l1)) =
          parse_hotkey (String.mk (joinPlus l2))) ∧
    (∀ s : String, parse_hotkey (String.mk (lowerStr s.data)) = parse_hotkey s) ∧
    (∀ l1 l2 : List (List Char),
      (∀ t ∈ l1, '+' ∉ t) → (∀ t ∈ l2, '+' ∉ t) →
      l1.map trimChars = l2.map trimChars →
        parse_hotkey (String.mk (joinPlus l1)) =
          parse_hotkey (String.mk (joinPlus l2))) := by
  refine ⟨fun _ => rfl, by decide, ?_, ?_, ?_⟩
  · intro l1 l2 hplus _ hperm
    have hplus2 : ∀ t ∈ l2, '+' ∉ t := fun t ht => hplus t (hperm.mem_iff.mpr ht)
    rw [parse_join hplus, parse_join hplus2]
    exact List.toFinset_eq_of_perm _ _ (hperm.filterMap keyOfToken)
  · intro s
    unfold parse_hotkey
    rw [show (String.mk (lowerStr s.data)).data = lowerStr s.data from rfl,
      splitPlus_lowerStr, List.filterMap_map]
    congr 1
    exact List.filterMap_congr fun t _ => keyOfToken_lowerStr t
  · intro l1 l2 hplus1 hplus2 htrim
    rw [parse_join hplus1, parse_join hplus2]
    unfold parseTokens
    rw [filterMap_keyOfToken_trim_congr htrim]

/-- C7 witness: reordering and re-spelling the tokens of `"Shift+Space"`
leaves the parsed set unchanged at a concrete instance. -/
theorem parse_hotkey_algebraic_witness :
    parse_hotkey (String.mk (joinPlus
        [['S', 'h', 'i', 'f', 't'], ['S', 'p', 'a', 'c', 'e']])) =
      parse_hotkey (String.mk (joinPlus
        [['S', 'p', 'a', 'c', 'e'], ['S', 'h', 'i', 'f', 't']])) :=
  parse_hotkey_algebraic.2.2.1
    [['S', 'h', 'i', 'f', 't'], ['S', 'p', 'a', 'c', 'e']]
    [['S', 'p', 'a', 'c', 'e'], ['S', 'h', 'i', 'f', 't']]
    (by decide) (by decide) (by decide)

/-- C8: a combo string with at least one unrecognized token parses without
error to exactly the set obtained from its recognized tokens alone: each
unrecognized token contributes no key. -/
theorem parse_hotkey_drops_unrecognized :
    ∀ l : List (List Char), (∀ t ∈ l, '+' ∉ t) →
      (∃ t ∈ l, keyOfToken t = none) →
      parse_hotkey (String.mk (joinPlus l)) =
        parse_hotkey (String.mk (joinPlus
          (l.filter fun t => (keyOfToken t).isSome))) := by
  intro l hplus _
  have hplus2 : ∀ t ∈ l.filter fun t => (keyOfToken t).isSome, '+' ∉ t :=
    fun t ht => hplus t (List.mem_of_mem_filter ht)
  rw [parse_join hplus, parse_join hplus2]
  unfold parseTokens
  rw [filterMap_keyOfToken_filter_isSome]

/-- C8 witness: the unrecognized token `"Foo"` inside `"Ctrl+Foo+Space"`
contributes nothing at a concrete instance. -/
theorem parse_hotkey_drops_unrecognized_witness :
    parse_hotkey (String.mk (joinPlus
        [['C', 't', 'r', 'l'], ['F', 'o', 'o'], ['S', 'p', 'a', 'c', 'e']])) =
      parse_hotkey (String.mk (joinPlus
        ([['C', 't', 'r', 'l'], ['F', 'o', 'o'], ['S', 'p', 'a', 'c', 'e']].filter
          fun t => (keyOfToken t).isSome))) :=
  parse_hotkey_drops_unrecognized
    [['C', 't', 'r', 'l'], ['F', 'o', 'o'], ['S', 'p', 'a', 'c', 'e']]
    (by decide) (by decide)

/-!
## The global input listener (src/hotkeys.rs)

The listener thread keeps a `HashSet` of currently pressed keys (embedded as
a `Finset Key`), inserts on `KeyPress`, removes on `KeyRelease`, ignores
other events, and then, holding the state mutex once, overwrites both fields
of the shared `HotkeyState` with the containment tests of the two parsed
combos against the updated pressed set. One call of `listenerStep` is the
body of the `listen` closure for one incoming event; its result is the pair
written while the single lock is held.
-/

/-- Embedding of `HotkeyState` from src/hotkeys.rs. -/
structure HotkeyState where
  is_recording : Bool
  is_post_processing : Bool
  deriving DecidableEq, Repr

/-- Embedding of `HotkeyState::new`. -/
def HotkeyState.new : HotkeyState :=
  ⟨false, false⟩

/-- The `rdev` event kinds the listener closure distinguishes: presses,
releases, and the catch-all `_ => {}` arm. -/
inductive KeyEvent where
  | keyPress (k : Key)
  | keyRelease (k : Key)
  | other
  deriving DecidableEq, Repr

/-- The pressed-set update performed at the top of the `listen` closure. -/
def updatePressed (pressed : Finset Key) : KeyEvent → Finset Key
  | KeyEvent.keyPress k => insert k pressed
  | KeyEvent.keyRelease k => pressed.erase k
  | KeyEvent.other => pressed

/-- Embedding of `combo.iter().all(|k| pressed.contains(k))`. -/
def comboActive (combo pressed : Finset Key) : Bool :=
  decide (∀ k ∈ combo, k ∈ pressed)

/-- One run of the `listen` closure: update the pressed set, then compute
`recording_active` and `modifier_active` from that one updated set and
write both into the shared state under the single lock acquisition. The
first component is the listener's new private pressed set, the second is
the `HotkeyState` value written. -/
def listenerStep (recording_keys modifier_keys pressed : Finset Key)
    (ev : KeyEvent) : Finset Key × HotkeyState :=
  let p := updatePressed pressed ev
  (p, ⟨comboActive recording_keys p, comboActive modifier_keys p⟩)

/-- Data handed to the spawned listener thread by `start_hotkey_listener`:
the two parsed combos. -/
structure ListenerSpawn where
  recording_keys : Finset Key
  modifier_keys : Finset Key
  deriving DecidableEq

/-- Embedding of `start_hotkey_listener` from src/hotkeys.rs: it parses the
two combo strings, spawns the listening thread (modelled by the
`ListenerSpawn` component), and returns `Ok(())`. Errors of the OS hook
occur inside the spawned thread, where they are printed and swallowed; they
never reach this function's return value. -/
def start_hotkey_listener (config_recording config_modifier : String) :
    Except String Unit × ListenerSpawn :=
  (Except.ok (), ⟨parse_hotkey config_recording, parse_hotkey config_modifier⟩)

/-- C6: after the listener processes any keyboard event, the written state
pairs `is_recording` with containment of the recording combo and
`is_post_processing` with containment of the modifier combo, both against
the same post-event pressed set, and that pressed set is the one the event
produced; the pair is a single value, so no observer sees the flags computed
from two different snapshots. -/
theorem listener_step_snapshot_consistent :
    ∀ (recording_keys modifier_keys pressed : Finset Key) (ev : KeyEvent),
      (listenerStep recording_keys modifier_keys pressed ev).1 =
        updatePressed pressed ev ∧
      ((listenerStep recording_keys modifier_keys pressed ev).2.is_recording = true ↔
        recording_keys ⊆ updatePressed pressed ev) ∧
      ((listenerStep recording_keys modifier_keys pressed ev).2.is_post_processing = true ↔
        modifier_keys ⊆ updatePressed pressed ev) := by
  intro recording_keys modifier_keys pressed ev
  refine ⟨rfl, ?_, ?_⟩ <;>
    simp [listenerStep, comboActive, Finset.subset_iff]

/-- C9: a combo counts as active exactly when every member key is in the
pressed set, and the empty combo parsed from a fully unrecognized string
makes the recording flag true after every event, whatever is pressed. -/
theorem combo_active_iff_subset :
    (∀ combo pressed : Finset Key,
      comboActive combo pressed = true ↔ combo ⊆ pressed) ∧
    (∀ s : String, (∀ t ∈ splitPlus s.data, keyOfToken t = none) →
      ∀ (modifier_keys pressed : Finset Key) (ev : KeyEvent),
        (listenerStep (parse_hotkey s) modifier_keys pressed ev).2.is_recording
          = true) := by
  constructor
  · intro combo pressed
    simp [comboActive, Finset.subset_iff]
  · intro s hnone modifier_keys pressed ev
    have hempty : parse_hotkey s = ∅ := by
      unfold parse_hotkey
      rw [List.filterMap_eq_nil_iff.mpr hnone]
      rfl
    simp [listenerStep, comboActive, hempty]

/-- C9 witness: the string `"Foo+Bar"` parses to no keys, and with it the
recording flag is computed as true on a concrete event with nothing
pressed. -/
theorem combo_active_iff_subset_witness :
    (listenerStep (parse_hotkey "Foo+Bar") ∅ ∅ KeyEvent.other).2.is_recording
      = true :=
  combo_active_iff_subset.2 "Foo+Bar" (by decide) ∅ ∅ KeyEvent.other

/-- C10: `start_hotkey_listener` returns `Ok(())` for every pair of combo
strings; parse results (even empty ones from unparseable strings) only feed
the spawned thread and never turn the return value into an error. -/
theorem start_hotkey_listener_always_ok :
    ∀ config_recording config_modifier : String,
      (start_hotkey_listener config_recording config_modifier).1 =
        Except.ok () ∧
      (start_hotkey_listener config_recording config_modifier).2 =
        ⟨parse_hotkey config_recording, parse_hotkey config_modifier⟩ :=
  fun _ _ => ⟨rfl, rfl⟩

/-!
## The dispatch orchestrator (src/main.rs)

One iteration of the body of the main loop, for a given snapshot
`current_state` of the shared `HotkeyState`, is embedded as a pure function
of the configuration and of the outcomes of the external collaborators for
that run (`record_audio`, `is_local_endpoint_available`, the
`dialoguer::Confirm` prompt, `transcribe_audio`, `post_process_text`,
`copy_to_clipboard`). The result is the shared state after the iteration
together with a trace of the externally visible actions of the run. An
`Except.error` result models the `?` operator on the confirmation prompt
propagating out of `main`; every `continue` is an `Except.ok` that leaves
the state unchanged with an empty trace.
-/

/-- Embedding of the `Endpoints` section of the configuration. -/
structure Endpoints where
  local_whisper : String
  hosted_whisper : String
  llm_endpoint : String
  deriving DecidableEq, Repr

/-- Embedding of the `Hotkeys` section of the configuration. -/
structure Hotkeys where
  recording : String
  post_processing_modifier : String
  deriving DecidableEq, Repr

/-- Embedding of the `AudioSettings` section of the configuration. -/
structure AudioSettings where
  recording_device : String
  deriving DecidableEq, Repr

/-- Embedding of the `LLMSettings` section of the configuration. -/
structure LLMSettings where
  post_processing_prompt : String
  always_post_process : Bool
  deriving DecidableEq, Repr

/-- Embedding of the `ApiKeys` section of the configuration. -/
structure ApiKeys where
  openai : String
  deriving DecidableEq, Repr

/-- Embedding of `Config` from src/config.rs. -/
structure Config where
  endpoints : Endpoints
  hotkeys : Hotkeys
  audio : AudioSettings
  llm : LLMSettings
  api_keys : ApiKeys
  deriving DecidableEq, Repr

/-- Outcomes of the external collaborators during one loop iteration:
the result of `record_audio`, of the local-endpoint reachability probe, of
the `Confirm` prompt (`interact()` can itself fail), of `transcribe_audio`,
of `post_process_text`, and of `copy_to_clipboard` (whose outcome is only
logged by `main` and affects nothing). -/
structure RunEnv where
  record_result : Except String Unit
  local_available : Bool
  confirm_answer : Except String Bool
  transcribe_result : Except String String
  post_process_result : Except String String
  clipboard_result : Except String Unit
  deriving Repr

/-- Externally visible actions of one loop iteration: whether
`transcribe_audio` was invoked and with which endpoint URL, whether
`post_process_text` was invoked, and the text handed to
`copy_to_clipboard` (none when no clipboard write was attempted). -/
structure RunTrace where
  transcribe_called : Bool
  transcribe_url : Option String
  post_process_called : Bool
  clipboard_text : Option String
  deriving DecidableEq, Repr

/-- Trace of an iteration that invoked no collaborator beyond recording and
the probe: nothing transcribed, nothing post-processed, no clipboard
write. -/
def emptyTrace : RunTrace :=
  ⟨false, none, false, none⟩

/-- The default answer of the sensitive-data `Confirm` prompt,
`Confirm::new()...default(false)` in src/main.rs. -/
def sensitive_confirm_default : Bool :=
  false

/-- Embedding of one iteration of the main loop of src/main.rs (the block
guarded by `if current_state.is_recording`). Mirrors the source order:
record, probe the local endpoint, gate on the confirmation when hosted,
transcribe, optionally post-process (falling back to the transcript on
error), copy to the clipboard ignoring its error, and only then reset both
shared flags; every failure path before transcription success instead
leaves the state untouched (`continue`). -/
def mainLoopBody (config : Config) (current_state : HotkeyState)
    (env : RunEnv) : Except String (HotkeyState × RunTrace) :=
  if current_state.is_recording then
    match env.record_result with
    | Except.error _ => Except.ok (current_state, emptyTrace)
    | Except.ok _ =>
      let use_local := env.local_available
      let whisper_url :=
        if use_local then config.endpoints.local_whisper
        else config.endpoints.hosted_whisper
      let confirm : Except String Bool :=
        if use_local then Except.ok true else env.confirm_answer
      match confirm with
      | Except.error e => Except.error e
      | Except.ok proceed =>
        if !proceed then Except.ok (current_state, emptyTrace)
        else
          match env.transcribe_result with
          | Except.error _ =>
            Except.ok (current_state, ⟨true, some whisper_url, false, none⟩)
          | Except.ok transcription =>
            let post_processing_needed :=
              current_state.is_post_processing || config.llm.always_post_process
            let final_text :=
              if post_processing_needed then
                match env.post_process_result with
                | Except.ok text => text
                | Except.error _ => transcription
              else transcription
            Except.ok (⟨false, false⟩,
              ⟨true, some whisper_url, post_processing_needed, some final_text⟩)
  else
    Except.ok (current_state, emptyTrace)

/-- A configuration with the same field values as the sample configuration
in the repository's tests, used for concrete runs of `mainLoopBody`. -/
def sampleConfig : Config :=
  ⟨⟨"http://localhost:5000/transcribe",
    "https://api.openai.com/v1/audio/transcriptions",
    "https://api.openai.com/v1/engines/davinci/completions"⟩,
   ⟨"Shift+Space", "Control"⟩,
   ⟨"default"⟩,
   ⟨"Please clean up and format the following text:", false⟩,
   ⟨"test_openai_api_key"⟩⟩

/-- Collaborator outcomes of a run whose transcription call fails with a
non-success status, everything before it succeeding locally. -/
def envTranscribeError : RunEnv :=
  ⟨Except.ok (), true, Except.ok true,
   Except.error "Whisper API error 400 Bad Request: Bad Request",
   Except.ok "unused", Except.ok ()⟩

/-- Collaborator outcomes of a fully successful local run with transcript
`"hello world"` and no post-processing failure. -/
def envSuccess : RunEnv :=
  ⟨Except.ok (), true, Except.ok true, Except.ok "hello world",
   Except.ok "unused", Except.ok ()⟩

/-- Collaborator outcomes of a run where the local endpoint is unreachable
and the user answers the confirmation gate in the negative. -/
def envDecline : RunEnv :=
  ⟨Except.ok (), false, Except.ok false, Except.ok "unused transcript",
   Except.ok "unused", Except.ok ()⟩

/-- Collaborator outcomes of a successful local transcription followed by a
failing post-processing call. -/
def envPostFail : RunEnv :=
  ⟨Except.ok (), true, Except.ok true, Except.ok "Transcribed text.",
   Except.error "LLM API error 500: Internal Server Error", Except.ok ()⟩

/-- C1 counterexample: a run that finishes in a transcription error does
not reset the two shared flags — `mainLoopBody` returns the entry state
`⟨true, true⟩` unchanged, falsifying the claim that every finished run
resets both fields to false. -/
theorem pipeline_reset_on_failure_cex :
    ¬ ∀ (st' : HotkeyState) (tr : RunTrace),
        mainLoopBody sampleConfig ⟨true, true⟩ envTranscribeError =
          Except.ok (st', tr) →
        (st'.is_recording = false ∧ st'.is_post_processing = false) := by
  intro hclaim
  have h := hclaim ⟨true, true⟩
    ⟨true, some "http://localhost:5000/transcribe", false, none⟩ rfl
  exact absurd h.1 (by decide)

/-- C1 amended: with the snapshot armed for recording, the finished
iteration has reset both shared flags to false precisely when the run
reached the delivery stage (a text was handed to the clipboard sink);
runs aborted by a recording error, a user decline, or a transcription
error leave the shared state untouched. -/
theorem pipeline_reset_iff_delivery :
    ∀ (config : Config) (st : HotkeyState) (env : RunEnv)
      (st' : HotkeyState) (tr : RunTrace),
      st.is_recording = true →
      mainLoopBody config st env = Except.ok (st', tr) →
      ((st'.is_recording = false ∧ st'.is_post_processing = false) ↔
        tr.clipboard_text.isSome = true) := by
  intro config st env st' tr hrec h
  rcases st with ⟨r, p⟩
  have hr : r = true := hrec
  subst hr
  rcases env with ⟨rr, la, ca, tsc, ppr, cb⟩
  rcases rr with e | u
  · simp [mainLoopBody] at h
    obtain ⟨h1, h2⟩ := h
    subst h1; subst h2
    simp [emptyTrace]
  · rcases la with _ | _
    · rcases ca with e | b
      · simp [mainLoopBody] at h
      · rcases b with _ | _
        · simp [mainLoopBody] at h
          obtain ⟨h1, h2⟩ := h
          subst h1; subst h2
          simp [emptyTrace]
        · rcases tsc with e | t
          · simp [mainLoopBody] at h
            obtain ⟨h1, h2⟩ := h
            subst h1; subst h2
            simp
          · simp [mainLoopBody] at h
            obtain ⟨h1, h2⟩ := h
            subst h1; subst h2
            simp
    · rcases tsc with e | t
      · simp [mainLoopBody] at h
        obtain ⟨h1, h2⟩ := h
        subst h1; subst h2
        simp
      · simp [mainLoopBody] at h
        obtain ⟨h1, h2⟩ := h
        subst h1; subst h2
        simp

/-- C1 amended witness: a concrete successful run resets the flags and
delivered text, instantiating the amended theorem. -/
theorem pipeline_reset_iff_delivery_witness :
    ((HotkeyState.mk false false).is_recording = false ∧
      (HotkeyState.mk false false).is_post_processing = false) ↔
    (RunTrace.mk true (some "http://localhost:5000/transcribe") false
      (some "hello world")).clipboard_text.isSome = true :=
  pipeline_reset_iff_delivery sampleConfig ⟨true, false⟩ envSuccess
    ⟨false, false⟩
    ⟨true, some "http://localhost:5000/transcribe", false, some "hello world"⟩
    rfl rfl

/-- C3: when the local endpoint is unreachable and the user answers the
sensitive-data confirmation gate (default answer: decline) in the negative,
the iteration makes no transcription call, no post-processing call, and no
clipboard write. -/
theorem decline_aborts_run :
    ∀ (config : Config) (st : HotkeyState) (env : RunEnv)
      (st' : HotkeyState) (tr : RunTrace),
      env.local_available = false →
      env.confirm_answer = Except.ok false →
      mainLoopBody config st env = Except.ok (st', tr) →
      tr.transcribe_called = false ∧ tr.post_process_called = false ∧
        tr.clipboard_text = none ∧ sensitive_confirm_default = false := by
  intro config st env st' tr hla hca h
  rcases env with ⟨rr, la, ca, tsc, ppr, cb⟩
  have hla' : la = false := hla
  have hca' : ca = Except.ok false := hca
  subst hla'; subst hca'
  rcases st with ⟨r, p⟩
  rcases r with _ | _ <;> rcases rr with e | u <;>
    simp [mainLoopBody] at h <;>
    obtain ⟨h1, h2⟩ := h <;> subst h2 <;>
    simp [emptyTrace, sensitive_confirm_default]

/-- C3 witness: a concrete declined hosted run performs none of the three
actions. -/
theorem decline_aborts_run_witness :
    emptyTrace.transcribe_called = false ∧
    emptyTrace.post_process_called = false ∧
    emptyTrace.clipboard_text = none ∧
    sensitive_confirm_default = false :=
  decline_aborts_run sampleConfig ⟨true, false⟩ envDecline ⟨true, false⟩
    emptyTrace rfl rfl rfl

/-- C4: when transcription succeeds with transcript `t`, post-processing is
wanted (modifier armed in the snapshot or the always-post-process flag set),
and the post-processing call fails, the iteration still completes: the
clipboard sink receives exactly `t` and the shared state is reset, so the
failure is not surfaced as a run failure. -/
theorem post_process_failure_falls_back :
    ∀ (config : Config) (st : HotkeyState) (env : RunEnv)
      (st' : HotkeyState) (tr : RunTrace) (t e : String),
      st.is_recording = true →
      env.record_result = Except.ok () →
      (env.local_available = true ∨ env.confirm_answer = Except.ok true) →
      env.transcribe_result = Except.ok t →
      (st.is_post_processing = true ∨ config.llm.always_post_process = true) →
      env.post_process_result = Except.error e →
      mainLoopBody config st env = Except.ok (st', tr) →
      tr.post_process_called = true ∧ tr.clipboard_text = some t ∧
        st' = ⟨false, false⟩ := by
  intro config st env st' tr t e hrec hrecord hgate htsc hwant hppr h
  rcases st with ⟨r, p⟩
  have hr : r = true := hrec
  subst hr
  rcases env with ⟨rr, la, ca, tsc, ppr, cb⟩
  have hrr : rr = Except.ok () := hrecord
  have htsc' : tsc = Except.ok t := htsc
  have hppr' : ppr = Except.error e := hppr
  subst hrr; subst htsc'; subst hppr'
  have hneed : (p || config.llm.always_post_process) = true := by
    rcases hwant with hp | ha
    · have : p = true := hp
      subst this
      rfl
    · rw [ha]
      simp
  rcases la with _ | _
  · rcases hgate with hl | hc
    · simp at hl
    · have hca : ca = Except.ok true := hc
      subst hca
      simp [mainLoopBody, hneed] at h
      obtain ⟨h1, h2⟩ := h
      subst h1; subst h2
      simp
  · simp [mainLoopBody, hneed] at h
    obtain ⟨h1, h2⟩ := h
    subst h1; subst h2
    simp

/-- C4 witness: a concrete run with transcript `"Transcribed text."` and a
failing post-processing call delivers the raw transcript unchanged. -/
theorem post_process_failure_falls_back_witness :
    (RunTrace.mk true (some "http://localhost:5000/transcribe") true
      (some "Transcribed text.")).post_process_called = true ∧
    (RunTrace.mk true (some "http://localhost:5000/transcribe") true
      (some "Transcribed text.")).clipboard_text = some "Transcribed text." ∧
    (HotkeyState.mk false false) = ⟨false, false⟩ :=
  post_process_failure_falls_back sampleConfig ⟨true, true⟩ envPostFail
    ⟨false, false⟩
    ⟨true, some "http://localhost:5000/transcribe", true,
      some "Transcribed text."⟩
    "Transcribed text." "LLM API error 500: Internal Server Error"
    rfl rfl (Or.inl rfl) rfl (Or.inl rfl) rfl rfl

/-- C5: when the transcription call fails, the iteration aborts at that
stage: no post-processing call is made, no clipboard write is attempted,
and the shared state is left as it was; the loop returns normally instead
of crashing. -/
theorem transcription_failure_aborts_run :
    ∀ (config : Config) (st : HotkeyState) (env : RunEnv)
      (st' : HotkeyState) (tr : RunTrace) (e : String),
      env.transcribe_result = Except.error e →
      mainLoopBody config st env = Except.ok (st', tr) →
      tr.post_process_called = false ∧ tr.clipboard_text = none ∧
        st' = st := by
  intro config st env st' tr e htsc h
  rcases env with ⟨rr, la, ca, tsc, ppr, cb⟩
  have htsc' : tsc = Except.error e := htsc
  subst htsc'
  rcases st with ⟨r, p⟩
  rcases r with _ | _
  · simp [mainLoopBody] at h
    obtain ⟨h1, h2⟩ := h
    subst h1; subst h2
    simp [emptyTrace]
  · rcases rr with e' | u
    · simp [mainLoopBody] at h
      obtain ⟨h1, h2⟩ := h
      subst h1; subst h2
      simp [emptyTrace]
    · rcases la with _ | _
      · rcases ca with e' | b
        · simp [mainLoopBody] at h
        · rcases b with _ | _
          · simp [mainLoopBody] at h
            obtain ⟨h1, h2⟩ := h
            subst h1; subst h2
            simp [emptyTrace]
          · simp [mainLoopBody] at h
            obtain ⟨h1, h2⟩ := h
            subst h1; subst h2
            simp
      · simp [mainLoopBody] at h
        obtain ⟨h1, h2⟩ := h
        subst h1; subst h2
        simp

/-- C5 witness: a concrete run whose transcription call returns a 400
status aborts without post-processing or clipboard write. -/
theorem transcription_failure_aborts_run_witness :
    (RunTrace.mk true (some "http://localhost:5000/transcribe") false
      none).post_process_called = false ∧
    (RunTrace.mk true (some "http://localhost:5000/transcribe") false
      none).clipboard_text = none ∧
    (HotkeyState.mk true false) = ⟨true, false⟩ :=
  transcription_failure_aborts_run sampleConfig ⟨true, false⟩
    envTranscribeError ⟨true, false⟩
    ⟨true, some "http://localhost:5000/transcribe", false, none⟩
    "Whisper API error 400 Bad Request: Bad Request" rfl rfl

/-!
## The realtime capture callback (src/audio.rs)

`build_stream::<T>` installs an input callback that runs
`bytemuck::cast_slice::<T, i16>(data)` and sends every element of the
resulting slice over the channel, breaking once the receiver is gone.
`cast_slice` is a byte reinterpretation of the buffer, not a per-sample
conversion: a buffer of `n` `f32` samples (4 bytes each) reinterprets as
`2 n` `i16` values, and a `u16` sample keeps its bit pattern instead of
being recentred. The embedding works on bit patterns: an `f32` sample is
its 32-bit IEEE-754 pattern as a `Nat` below `2 ^ 32`, an `i16`/`u16`
value is its 16-bit pattern as a `Nat` below `2 ^ 16` (x86 little-endian
byte order within a word).
-/

/-- The two 16-bit little-endian halves of a 32-bit word, the `i16` bit
patterns that `bytemuck::cast_slice::<f32, i16>` reads out of one `f32`
sample. -/
def word32LE16 (w : Nat) : List Nat :=
  [w % 65536, w / 65536 % 65536]

/-- Embedding of `bytemuck::cast_slice::<f32, i16>` on a buffer of `f32`
bit patterns: the flattened list of 16-bit halves. -/
def cast_slice_f32_to_i16 (data : List Nat) : List Nat :=
  (data.map word32LE16).flatten

/-- The `i16` bit patterns the `f32` instance of the `build_stream`
callback pushes onto the hand-off channel for one hardware buffer: all of
`cast_slice`'s output while the receiver is connected, nothing after it
disconnects. -/
def build_stream_callback_f32 (receiver_connected : Bool)
    (data : List Nat) : List Nat :=
  if receiver_connected then cast_slice_f32_to_i16 data else []

/-- What reinterpreting one `u16` bit pattern as `i16` yields (the `u16`
instance of the callback), as a signed integer. -/
def cast_u16_bits_to_i16 (v : Nat) : Int :=
  if v < 32768 then (v : Int) else (v : Int) - 65536

/-- The conversion the spec describes for an unsigned 16-bit sample: its
16-bit signed representation recentres the unsigned midpoint at zero (the
`cpal::Sample` conversion `u16 -> i16`). Stated from the spec's words for
comparison with the code's reinterpretation. -/
def spec_convert_u16_to_i16 (v : Nat) : Int :=
  (v : Int) - 32768

/-- C2 evaluation at the failing input: for the one-sample `f32` buffer
holding `1.0` (bit pattern `0x3F800000`), the callback pushes the two
half-words `[0, 16256]` — two values for one incoming sample, neither of
them the sample's 16-bit signed representation — so the pushed list does
not have one entry per incoming sample; and on `u16` devices the
reinterpretation maps the sample `0` to `0` where the spec's conversion
yields `-32768`. -/
theorem capture_callback_not_per_sample :
    build_stream_callback_f32 true [1065353216] = [0, 16256] ∧
    (build_stream_callback_f32 true [1065353216]).length = 2 ∧
    ([1065353216] : List Nat).length = 1 ∧
    cast_u16_bits_to_i16 0 = 0 ∧
    spec_convert_u16_to_i16 0 = -32768 := by
  refine ⟨rfl, rfl, rfl, rfl, rfl⟩
